import Mathlib

/-!
Verification of the asynchronous HTTP request engine (`AsyncHttpRequest`).

The development shallowly embeds the request lifecycle of
`asynchttprequest.cpp`: the response accumulator (`httpEventHandler`),
the controller operations (`startTask`, `endTask`, `start`, `retry`,
`abort`, `result`, `clearFinished`) and the worker loop (`requestTask`)
as a labeled transition system over an explicit engine state.

Modelling conventions:
* FreeRTOS event-group bits are Bool fields of the state; each
  event-group API call (`getBits` / `setBits` / `clearBits` / `waitBits`)
  is atomic, matching the primitive's guarantee.
* The worker loop is broken into one step per atomic operation
  (program counter `WPc`); controller operations are modelled as atomic
  transitions, since each runs on the single caller thread.
* `esp_err_t` is `Int` (`ESP_OK = 0`, `ESP_FAIL = -1`,
  `ESP_ERR_NO_MEM = 0x101`); `EAGAIN`/`EINPROGRESS` carry the newlib
  values used by ESP-IDF.
* The transport driver (`m_client.perform()`) is nondeterministic: a
  perform step carries an arbitrary outcome code and an arbitrary list
  of synchronous events delivered to `httpEventHandler`.
* C asserts in the worker are modelled as a step that moves to a dead
  program point (`wdead`, process aborted) when the asserted condition
  is violated.
-/

/-- Program counter of the worker thread (`AsyncHttpRequest::requestTask`),
one value per atomic operation of the loop body. -/
inductive WPc where
  | notStarted    -- no worker thread exists (m_taskHandle == NULL)
  | winit         -- thread created, before setBits(TASK_RUNNING)
  | wwait         -- blocked in waitBits(START_REQUEST|END_TASK, clear, any)
  | wassert       -- about to check the assert block (lines 490-497)
  | wsetRunning   -- about to setBits(REQUEST_RUNNING)
  | wclearBuf     -- top of retry loop: about to m_buf.clear()
  | wperform      -- about to call m_client.perform()
  | wabortCheck   -- about to clearBits(ABORT_REQUEST) and test it
  | wstoreResult  -- about to store m_result / m_statusCode
  | wclose        -- about to m_client.close()
  | wclearRun     -- cleanup helper: clearBits(REQUEST_RUNNING|ABORT_REQUEST)
  | wsetFinished  -- cleanup helper: setBits(REQUEST_FINISHED)
  | wexit         -- END_TASK taken: about to run the task-exit cleanup
  | wdead         -- a C assert fired: the process aborted
deriving DecidableEq, Repr

/-- The response accumulator: the fields of `AsyncHttpRequest` read and
written by `httpEventHandler` (`m_buf`, its reserved capacity,
`m_sizeLimit`, `m_collectResponseHeaders`, `m_responseHeaders`). -/
structure AccState where
  buf : List Nat                        -- m_buf (bytes)
  bufCap : Nat                          -- m_buf's reserved capacity
  sizeLimit : Nat                       -- m_sizeLimit
  collectHeaders : Bool                 -- m_collectResponseHeaders
  respHeaders : List (String × String)  -- m_responseHeaders (unique keys)
deriving DecidableEq, Repr

/-- An `esp_http_client_event_t` as seen by `httpEventHandler`: header
events carry possibly-null key/value strings; data events carry a
pointer-validity bit and the chunk bytes (`data_len` is the chunk
length, which the claims only exercise at non-negative values). -/
inductive HttpEventModel where
  | onHeader (headerKey : Option String) (headerValue : Option String)
  | onData (ptrValid : Bool) (data : List Nat)
  | otherEvent
deriving DecidableEq, Repr

/-- The whole engine state: event-group bits, worker program counter,
task/client handles, accumulator, result fields, and the worker-local
`result` variable of the retry loop.  `lastEvents` is a ghost field
recording the events delivered by the most recent perform step. -/
structure EngineState where
  taskRunning : Bool      -- TASK_RUNNING_BIT
  startRequest : Bool     -- START_REQUEST_BIT
  requestRunning : Bool   -- REQUEST_RUNNING_BIT
  requestFinished : Bool  -- REQUEST_FINISHED_BIT
  endTaskBit : Bool       -- END_TASK_BIT
  taskEnded : Bool        -- TASK_ENDED_BIT
  abortRequest : Bool     -- ABORT_REQUEST_BIT
  pc : WPc
  taskHandle : Bool       -- m_taskHandle != NULL
  hasClient : Bool        -- m_client is constructed
  acc : AccState
  mResult : Int           -- m_result
  mStatusCode : Int       -- m_statusCode
  resultVar : Int         -- local `result` inside the retry loop
  lastEvents : List HttpEventModel
deriving DecidableEq, Repr

def ESP_OK : Int := 0
def ESP_FAIL : Int := -1
def ESP_ERR_NO_MEM : Int := 257
-- newlib errno values used by ESP-IDF
def EAGAIN : Int := 11
def EINPROGRESS : Int := 119

/-- Models `esp_err_to_name` for the codes this development uses. -/
def espErrToName (e : Int) : String :=
  if e = 0 then "ESP_OK"
  else if e = -1 then "ESP_FAIL"
  else if e = 257 then "ESP_ERR_NO_MEM"
  else "UNKNOWN ERROR"

/-- `strcasecmp(a, b) == 0`: ASCII case-insensitive string equality
(per-character `tolower`). -/
def strCaseEq (a b : String) : Bool :=
  a.data.map Char.toLower == b.data.map Char.toLower

/-- Models `std::sscanf(v, "%u", &size) == 1`: skip leading whitespace,
accept an optional sign, then require at least one digit; the value is
the digit prefix reduced modulo 2^32 (`unsigned int` on the 32-bit
target), trailing characters ignored. -/
def sscanfU (v : String) : Option Nat :=
  let cs := v.toList.dropWhile fun c =>
    c == ' ' || c == '\t' || c == '\n' || c == '\r' || c == '\x0b' || c == '\x0c'
  let signAndRest : Bool × List Char :=
    match cs with
    | '-' :: rest => (true, rest)
    | '+' :: rest => (false, rest)
    | _ => (false, cs)
  let ds := signAndRest.2.takeWhile Char.isDigit
  if ds.isEmpty then none
  else
    let n := (ds.foldl (fun acc c => acc * 10 + (c.toNat - 48)) 0) % 2 ^ 32
    some (if signAndRest.1 then (2 ^ 32 - n) % 2 ^ 32 else n)

/-- `std::map::emplace(make_pair(k, v))`: inserts only when no element
with key `k` exists; an existing mapping is left untouched. -/
def mapEmplace (k v : String) (m : List (String × String)) : List (String × String) :=
  if (m.lookup k).isSome then m else m ++ [(k, v)]

/-- `std::string::reserve(n)` on a buffer with capacity `cap`:
capacity grows to at least `n`, never shrinks. -/
def bufReserve (cap n : Nat) : Nat := max cap n

/-- `AsyncHttpRequest::httpEventHandler` (lines 405-450): processes one
event against the accumulator, returning the new accumulator and the
`esp_err_t` returned to the http client driver. -/
def httpEventHandler (a : AccState) (evt : HttpEventModel) : AccState × Int :=
  match evt with
  | .onHeader hk hv =>
    match hk, hv with
    | some k, some v =>
      let a1 := if a.collectHeaders then
          { a with respHeaders := mapEmplace k v a.respHeaders }
        else a
      let a2 := if strCaseEq k "Content-Length" then
          match sscanfU v with
          | some n => { a1 with bufCap := bufReserve a1.bufCap (min n a1.sizeLimit) }
          | none => a1
        else a1
      (a2, ESP_OK)
    | _, _ => (a, ESP_OK)
  | .onData ptrValid data =>
    if ptrValid = false then (a, ESP_OK)        -- "handler with invalid data ptr"
    else if data.length = 0 then (a, ESP_OK)    -- "handler with invalid data_len"
    else if a.buf.length ≥ a.sizeLimit then (a, ESP_ERR_NO_MEM)
    else
      let remaining := a.sizeLimit - a.buf.length
      let a1 := { a with buf := a.buf ++ data.take (min data.length remaining) }
      (a1, if remaining < data.length then ESP_ERR_NO_MEM else ESP_OK)
  | .otherEvent => (a, ESP_OK)

/-- Runs `httpEventHandler` over a list of events delivered during one
`perform()` call; the Bool is true iff every event returned `ESP_OK`
(no resource-exhaustion signalled). -/
def runEvents : AccState → List HttpEventModel → AccState × Bool
  | a, [] => (a, true)
  | a, e :: rest =>
    let p := httpEventHandler a e
    let q := runEvents p.1 rest
    (q.1, (p.2 == ESP_OK) && q.2)

/-- Buffer-only projection of one handler step (data events only touch
the byte buffer, bounded by the size ceiling). -/
def bufStep (limit : Nat) (b : List Nat) (e : HttpEventModel) : List Nat :=
  match e with
  | .onData ptrValid data =>
    if ptrValid = false then b
    else if data.length = 0 then b
    else if b.length ≥ limit then b
    else b ++ data.take (min data.length (limit - b.length))
  | _ => b

/-- Buffer-only projection of a handler run. -/
def bufFold (limit : Nat) : List Nat → List HttpEventModel → List Nat
  | b, [] => b
  | b, e :: rest => bufFold limit (bufStep limit b e) rest

theorem httpEventHandler_buf (a : AccState) (e : HttpEventModel) :
    (httpEventHandler a e).1.buf = bufStep a.sizeLimit a.buf e ∧
    (httpEventHandler a e).1.sizeLimit = a.sizeLimit := by
  cases e with
  | onHeader hk hv =>
    cases hk <;> cases hv <;> simp [httpEventHandler, bufStep] <;> split_ifs <;>
      (try split) <;> simp
  | onData ptrValid data =>
    simp only [httpEventHandler, bufStep]
    split_ifs <;> simp
  | otherEvent => simp [httpEventHandler, bufStep]

theorem runEvents_buf (evs : List HttpEventModel) : ∀ a : AccState,
    (runEvents a evs).1.buf = bufFold a.sizeLimit a.buf evs ∧
    (runEvents a evs).1.sizeLimit = a.sizeLimit := by
  induction evs with
  | nil => intro a; simp [runEvents, bufFold]
  | cons e rest ih =>
    intro a
    have h := httpEventHandler_buf a e
    have h2 := ih (httpEventHandler a e).1
    simp only [runEvents, bufFold]
    refine ⟨?_, ?_⟩
    · rw [h2.1, h.1, h.2]
    · rw [h2.2, h.2]

/-- Constructed engine: all event-group bits clear, no worker, no client,
member initializers `m_result{}`, `m_statusCode{}`, `m_sizeLimit{4096}`,
`m_collectResponseHeaders{}`, empty buffer and header map. -/
def initState : EngineState :=
  { taskRunning := false, startRequest := false, requestRunning := false
    requestFinished := false, endTaskBit := false, taskEnded := false
    abortRequest := false, pc := WPc.notStarted, taskHandle := false
    hasClient := false
    acc := { buf := [], bufCap := 0, sizeLimit := 4096
             collectHeaders := false, respHeaders := [] }
    mResult := 0, mStatusCode := 0, resultVar := 0, lastEvents := [] }

/-- `AsyncHttpRequest::inProgress` (lines 368-371). -/
def inProgressB (s : EngineState) : Bool :=
  s.startRequest || s.requestRunning

/-- `AsyncHttpRequest::finished` (lines 373-376). -/
def finishedB (s : EngineState) : Bool :=
  s.requestFinished

/-- `AsyncHttpRequest::clearFinished` (lines 400-403). -/
def clearFinishedFn (s : EngineState) : EngineState :=
  { s with requestFinished := false }

/-- `AsyncHttpRequest::abort` (lines 355-366). -/
def abortFn (s : EngineState) : EngineState × Option String :=
  if (s.startRequest || s.requestRunning) = false then
    (s, some "no ota job is running!")
  else if s.abortRequest then
    (s, some "an abort has already been requested!")
  else
    ({ s with abortRequest := true }, none)

/-- `AsyncHttpRequest::result` (lines 378-398): `none` is the success
value of the returned `std::expected`. -/
def resultFn (s : EngineState) : Option String :=
  if s.requestRunning then some "request still running"
  else if s.requestFinished = false then some "request not finished"
  else if s.mResult ≠ ESP_OK then
    some ("http request failed: " ++ espErrToName s.mResult)
  else none

/-- `AsyncHttpRequest::failed` of the earlier revision
(`src/asynchttprequest.cpp` lines 212-235), which additionally reports
a non-success HTTP status code (`HttpStatus_Ok = 200`) as a failure. -/
def failedFn (s : EngineState) : Option String :=
  if s.requestRunning then some "request still running"
  else if s.requestFinished = false then some "request not finished"
  else if s.mResult ≠ ESP_OK then
    some ("http request failed: " ++ espErrToName s.mResult)
  else if s.mStatusCode ≠ 200 then
    some ("http request failed: " ++ toString s.mStatusCode)
  else none

/-- `AsyncHttpRequest::startTask` (lines 51-98), thread creation assumed
to succeed: clears every flag, records the new handle and places the
new thread at its entry point.  The subsequent wait for TASK_RUNNING
blocks but mutates nothing. -/
def startTaskFn (s : EngineState) : EngineState × Option String :=
  if s.taskHandle then (s, some "http task handle is not null")
  else if s.taskRunning then (s, some "http task already running")
  else
    ({ s with taskRunning := false, startRequest := false,
              requestRunning := false, requestFinished := false,
              endTaskBit := false, taskEnded := false, abortRequest := false,
              taskHandle := true, pc := WPc.winit }, none)

/-- `AsyncHttpRequest::endTask` (lines 100-131): the flag-mutating part
(setting END_TASK); the wait for TASK_ENDED is modelled by
`endTaskAck` in the step relation. -/
def endTaskFn (s : EngineState) : EngineState × Option String :=
  if s.taskRunning = false then (s, none)
  else if s.endTaskBit then (s, some "Another end request is already pending")
  else ({ s with endTaskBit := true }, none)

/-- Body of `AsyncHttpRequest::start` after the implicit `startTask`
(lines 208-259): the in-progress guard, client recreation, then header
application / body open+write — whose driver failures are collapsed
into the `setupOk` parameter — and finally buffer clear, clearFinished
and setBits(START_REQUEST). -/
def startBody (s1 : EngineState) (setupOk : Bool) : EngineState × Option String :=
  if s1.startRequest || s1.requestRunning then
    (s1, some "another request still in progress")
  else
    let s2 := { s1 with hasClient := true }
    if setupOk = false then (s2, some "start setup failed")
    else
      ({ s2 with acc := { s2.acc with buf := [] },
                 requestFinished := false, startRequest := true }, none)

/-- `AsyncHttpRequest::start` (lines 197-260). -/
def startFn (s : EngineState) (setupOk : Bool) : EngineState × Option String :=
  if s.taskHandle = false then
    let p := startTaskFn s
    match p.2 with
    | some m => (p.1, some m)
    | none => startBody p.1 setupOk
  else startBody s setupOk

/-- Body of `AsyncHttpRequest::retry` after the implicit `startTask`
(lines 277-352): like `startBody` but requires an existing client and
never recreates it. -/
def retryBody (s1 : EngineState) (setupOk : Bool) : EngineState × Option String :=
  if s1.startRequest || s1.requestRunning then
    (s1, some "another request still in progress")
  else if s1.hasClient = false then (s1, some "http client is null")
  else if setupOk = false then (s1, some "retry setup failed")
  else
    ({ s1 with acc := { s1.acc with buf := [] },
               requestFinished := false, startRequest := true }, none)

/-- `AsyncHttpRequest::retry` (lines 262-353). -/
def retryFn (s : EngineState) (setupOk : Bool) : EngineState × Option String :=
  if s.taskHandle = false then
    let p := startTaskFn s
    match p.2 with
    | some m => (p.1, some m)
    | none => retryBody p.1 setupOk
  else retryBody s setupOk

/-- The condition of the worker's assert block (lines 490-497): the
asserts fire (aborting the process) iff this is true at the single
`getBits` read. -/
def assertViolated (s : EngineState) : Bool :=
  s.startRequest || s.requestRunning || s.requestFinished || !s.hasClient

/-- C1: on a data-received event with a valid pointer and positive
length, `httpEventHandler` appends nothing and returns
`ESP_ERR_NO_MEM` when the buffer has already reached the size ceiling;
otherwise it appends exactly `min (chunk length) (ceiling - size)`
bytes and returns `ESP_ERR_NO_MEM` iff the chunk exceeded the
remaining capacity; a buffer within the ceiling stays within the
ceiling. -/
theorem c1_data_event_ceiling (a : AccState) (data : List Nat)
    (hdata : data ≠ []) :
    (a.buf.length ≥ a.sizeLimit →
      httpEventHandler a (.onData true data) = (a, ESP_ERR_NO_MEM)) ∧
    (a.buf.length < a.sizeLimit →
      (httpEventHandler a (.onData true data)).1.buf
        = a.buf ++ data.take (min data.length (a.sizeLimit - a.buf.length)) ∧
      (httpEventHandler a (.onData true data)).1.buf.length
        = a.buf.length + min data.length (a.sizeLimit - a.buf.length) ∧
      ((httpEventHandler a (.onData true data)).2 = ESP_ERR_NO_MEM ↔
        a.sizeLimit - a.buf.length < data.length)) ∧
    (a.buf.length ≤ a.sizeLimit →
      (httpEventHandler a (.onData true data)).1.buf.length ≤ a.sizeLimit) := by
  have hlen : ¬ data.length = 0 := by
    simpa using fun h => hdata (List.eq_nil_of_length_eq_zero h)
  refine ⟨fun hge => ?_, fun hlt => ?_, fun hle => ?_⟩
  · simp [httpEventHandler, hlen, hge]
  · have hnge : ¬ a.buf.length ≥ a.sizeLimit := by omega
    simp only [httpEventHandler]
    rw [if_neg (by simp), if_neg hlen, if_neg hnge]
    refine ⟨rfl, ?_, ?_⟩
    · simp [List.length_take]
    · split_ifs with h4 <;> simp [ESP_ERR_NO_MEM, ESP_OK, h4]
  · by_cases hge : a.buf.length ≥ a.sizeLimit
    · simpa [httpEventHandler, hlen, hge] using hle
    · simp only [httpEventHandler]
      rw [if_neg (by simp), if_neg hlen, if_neg hge]
      simp [List.length_take]
      omega

/-- C1 witness: ceiling 10, single 15-byte data event on an empty
buffer: the buffer ends at exactly 10 bytes and exhaustion
(`ESP_ERR_NO_MEM`) is reported. -/
theorem c1_data_event_ceiling_witness :
    (httpEventHandler
      { buf := [], bufCap := 0, sizeLimit := 10
        collectHeaders := false, respHeaders := [] }
      (.onData true (List.range 15))).1.buf.length = 10 ∧
    (httpEventHandler
      { buf := [], bufCap := 0, sizeLimit := 10
        collectHeaders := false, respHeaders := [] }
      (.onData true (List.range 15))).2 = ESP_ERR_NO_MEM := by
  have h := c1_data_event_ceiling
    { buf := [], bufCap := 0, sizeLimit := 10
      collectHeaders := false, respHeaders := [] }
    (List.range 15) (by decide)
  have h2 := h.2.1 (by decide)
  refine ⟨?_, h2.2.2.mpr (by decide)⟩
  rw [h2.2.1]; decide

/-- C4: `abort()` fails with the not-running error when neither
START_REQUEST nor REQUEST_RUNNING is set, fails with the
already-requested error when ABORT_REQUEST is already set, and
otherwise sets exactly ABORT_REQUEST and returns success; in both
failure cases the state is returned unchanged. -/
theorem c4_abort_error_paths (s : EngineState) :
    (s.startRequest = false → s.requestRunning = false →
      abortFn s = (s, some "no ota job is running!")) ∧
    ((s.startRequest || s.requestRunning) = true → s.abortRequest = true →
      abortFn s = (s, some "an abort has already been requested!")) ∧
    ((s.startRequest || s.requestRunning) = true → s.abortRequest = false →
      abortFn s = ({ s with abortRequest := true }, none)) := by
  unfold abortFn
  split_ifs with h1 h2 <;> simp_all

/-- C4 witness: in the constructed state no request is queued or
running, so `abort()` fails with the not-running error and changes
nothing. -/
theorem c4_abort_error_paths_witness :
    abortFn initState = (initState, some "no ota job is running!") :=
  (c4_abort_error_paths initState).1 rfl rfl

/-- C5: `result()` fails with the still-running error whenever
REQUEST_RUNNING is set, with the not-finished error whenever
REQUEST_FINISHED is clear (in particular in the constructed state,
before any request was ever started), and otherwise succeeds iff the
stored completion code is `ESP_OK`, reporting the transport's error
description otherwise. -/
theorem c5_result_error_paths (s : EngineState) :
    (s.requestRunning = true → resultFn s = some "request still running") ∧
    (s.requestRunning = false → s.requestFinished = false →
      resultFn s = some "request not finished") ∧
    (s.requestRunning = false → s.requestFinished = true →
      ((resultFn s = none ↔ s.mResult = ESP_OK) ∧
       (s.mResult ≠ ESP_OK →
         resultFn s = some ("http request failed: " ++ espErrToName s.mResult)))) ∧
    resultFn initState = some "request not finished" := by
  refine ⟨?_, ?_, ?_, by decide⟩ <;> (unfold resultFn; split_ifs <;> simp_all)

/-- C5 witness: with REQUEST_RUNNING set, `result()` reports the
still-running error. -/
theorem c5_result_error_paths_witness :
    resultFn { initState with requestRunning := true }
      = some "request still running" :=
  (c5_result_error_paths { initState with requestRunning := true }).1 rfl

/-- First value carried by a header-received event for key `k` (both
fields non-null) in an event list. -/
def firstHeaderVal (k : String) : List HttpEventModel → Option String
  | [] => none
  | HttpEventModel.onHeader (some k2) (some v) :: rest =>
      if k2 = k then some v else firstHeaderVal k rest
  | _ :: rest => firstHeaderVal k rest

theorem lookup_append_singleton (m : List (String × String)) (k k2 v : String) :
    List.lookup k (m ++ [(k2, v)])
      = (List.lookup k m).or (if k2 = k then some v else none) := by
  induction m with
  | nil =>
    by_cases h : k2 = k
    · subst h; simp [List.lookup]
    · have h2 : (k == k2) = false := by
        simpa using fun hh => h hh.symm
      simp [List.lookup, h, h2]
  | cons p rest ih =>
    obtain ⟨pk, pv⟩ := p
    by_cases h : k = pk
    · subst h; simp [List.lookup]
    · have h2 : (k == pk) = false := by simpa using h
      simpa [List.lookup, h2] using ih

theorem lookup_mapEmplace (m : List (String × String)) (k k2 v : String) :
    List.lookup k (mapEmplace k2 v m)
      = (List.lookup k m).or (if k2 = k then some v else none) := by
  unfold mapEmplace
  split_ifs with h hk h2
  · subst hk
    obtain ⟨w, hw⟩ := Option.isSome_iff_exists.mp h
    rw [hw]
    rfl
  · cases hx : List.lookup k m <;> simp [Option.or]
  · rw [lookup_append_singleton, if_pos h2]
  · rw [lookup_append_singleton, if_neg (by assumption)]

theorem httpEventHandler_collect (a : AccState) (e : HttpEventModel) :
    (httpEventHandler a e).1.collectHeaders = a.collectHeaders ∧
    (a.collectHeaders = false → (httpEventHandler a e).1.respHeaders = a.respHeaders) := by
  cases e with
  | onHeader hk hv =>
    cases hk with
    | none => cases hv <;> simp [httpEventHandler]
    | some k2 =>
      cases hv with
      | none => simp [httpEventHandler]
      | some v =>
        simp only [httpEventHandler]
        split_ifs <;> (try split) <;> simp_all
  | onData ptrValid data =>
    simp only [httpEventHandler]
    split_ifs <;> simp
  | otherEvent => simp [httpEventHandler]

theorem httpEventHandler_collect_respHeaders (a : AccState) (k2 v : String)
    (h : a.collectHeaders = true) :
    (httpEventHandler a (.onHeader (some k2) (some v))).1.respHeaders
      = mapEmplace k2 v a.respHeaders := by
  simp only [httpEventHandler, h, if_pos]
  split <;> (try split) <;> simp

theorem httpEventHandler_noheader_respHeaders (a : AccState) (e : HttpEventModel)
    (h : ∀ k2 v, e ≠ .onHeader (some k2) (some v)) :
    (httpEventHandler a e).1.respHeaders = a.respHeaders := by
  cases e with
  | onHeader hk hv =>
    cases hk <;> cases hv <;> simp [httpEventHandler]
    exact absurd rfl (h _ _)
  | onData ptrValid data =>
    simp only [httpEventHandler]
    split_ifs <;> simp
  | otherEvent => simp [httpEventHandler]

theorem runEvents_nocollect (evs : List HttpEventModel) : ∀ a : AccState,
    a.collectHeaders = false → (runEvents a evs).1.respHeaders = a.respHeaders := by
  induction evs with
  | nil => intro a _; simp [runEvents]
  | cons e rest ih =>
    intro a h
    have h1 := httpEventHandler_collect a e
    simp only [runEvents]
    rw [ih _ (h ▸ h1.1), h1.2 h]

theorem runEvents_lookup (k : String) (evs : List HttpEventModel) : ∀ a : AccState,
    a.collectHeaders = true →
    List.lookup k (runEvents a evs).1.respHeaders
      = (List.lookup k a.respHeaders).or (firstHeaderVal k evs) := by
  induction evs with
  | nil => intro a _; simp [runEvents, firstHeaderVal]
  | cons e rest ih =>
    intro a h
    have hc := (httpEventHandler_collect a e).1
    simp only [runEvents]
    rw [ih _ (h ▸ hc)]
    match e with
    | .onHeader (some k2) (some v) =>
      rw [httpEventHandler_collect_respHeaders a k2 v h, lookup_mapEmplace,
          Option.or_assoc]
      congr 1
      by_cases hk : k2 = k <;> simp [firstHeaderVal, hk]
    | .onHeader none _ =>
      rw [httpEventHandler_noheader_respHeaders a _ (by intro k2 v hne; cases hne)]
      simp [firstHeaderVal]
    | .onHeader (some k2) none =>
      rw [httpEventHandler_noheader_respHeaders a _ (by intro k3 v hne; cases hne)]
      simp [firstHeaderVal]
    | .onData p d =>
      rw [httpEventHandler_noheader_respHeaders a _ (by intro k2 v hne; cases hne)]
      simp [firstHeaderVal]
    | .otherEvent =>
      rw [httpEventHandler_noheader_respHeaders a _ (by intro k2 v hne; cases hne)]
      simp [firstHeaderVal]

/-- C8 counterexample: with header collection enabled, two
header-received events with the same key "X-Test" and values "one"
then "two" leave the mapping holding the FIRST value "one", not the
later "two" — `std::map::emplace` does not overwrite, so the claimed
last-value-wins behaviour is false. -/
theorem c8_header_overwrite_cex :
    List.lookup "X-Test"
      (runEvents
        { buf := [], bufCap := 0, sizeLimit := 4096
          collectHeaders := true, respHeaders := [] }
        [.onHeader (some "X-Test") (some "one"),
         .onHeader (some "X-Test") (some "two")]).1.respHeaders
      = some "one" ∧
    ¬ List.lookup "X-Test"
      (runEvents
        { buf := [], bufCap := 0, sizeLimit := 4096
          collectHeaders := true, respHeaders := [] }
        [.onHeader (some "X-Test") (some "one"),
         .onHeader (some "X-Test") (some "two")]).1.respHeaders
      = some "two" := by
  constructor <;> decide

/-- C8 (amended): with header collection disabled `responseHeaders()`
stays empty (unchanged) no matter which events fire; with it enabled,
starting from an empty mapping, each key maps to the FIRST value seen
for it — later duplicates are ignored, because `std::map::emplace`
inserts only when the key is absent. -/
theorem c8_header_first_wins (a : AccState) (evs : List HttpEventModel) (k : String) :
    (a.collectHeaders = false →
      (runEvents a evs).1.respHeaders = a.respHeaders) ∧
    (a.collectHeaders = true → a.respHeaders = [] →
      List.lookup k (runEvents a evs).1.respHeaders = firstHeaderVal k evs) := by
  refine ⟨fun h => runEvents_nocollect evs a h, fun h hemp => ?_⟩
  rw [runEvents_lookup k evs a h, hemp]
  simp [List.lookup]

/-- C8 witness: with collection enabled and two distinct keys the
mapping records the first value of each. -/
theorem c8_header_first_wins_witness :
    List.lookup "Server"
      (runEvents
        { buf := [], bufCap := 0, sizeLimit := 4096
          collectHeaders := true, respHeaders := [] }
        [.onHeader (some "Server") (some "esp32")]).1.respHeaders
      = firstHeaderVal "Server" [.onHeader (some "Server") (some "esp32")] := by
  exact (c8_header_first_wins
    { buf := [], bufCap := 0, sizeLimit := 4096
      collectHeaders := true, respHeaders := [] }
    [.onHeader (some "Server") (some "esp32")] "Server").2 rfl rfl

theorem httpEventHandler_contentLength (a : AccState) (v : String) (n : Nat)
    (hv : sscanfU v = some n) :
    (httpEventHandler a (.onHeader (some "Content-Length") (some v))).1.buf = a.buf ∧
    (httpEventHandler a (.onHeader (some "Content-Length") (some v))).1.bufCap
      = bufReserve a.bufCap (min n a.sizeLimit) ∧
    (httpEventHandler a (.onHeader (some "Content-Length") (some v))).1.sizeLimit
      = a.sizeLimit ∧
    (httpEventHandler a (.onHeader (some "Content-Length") (some v))).2 = ESP_OK := by
  have hcl : strCaseEq "Content-Length" "Content-Length" = true := by decide
  simp only [httpEventHandler, hcl, if_true, hv]
  split_ifs <;> simp

theorem runEvents_data_fill (chunks : List (List Nat)) : ∀ a : AccState,
    a.buf.length + (chunks.map List.length).sum ≤ a.sizeLimit →
    (runEvents a (chunks.map (HttpEventModel.onData true))).1.buf.length
      = a.buf.length + (chunks.map List.length).sum ∧
    (runEvents a (chunks.map (HttpEventModel.onData true))).2 = true ∧
    (runEvents a (chunks.map (HttpEventModel.onData true))).1.bufCap = a.bufCap := by
  induction chunks with
  | nil => intro a _; simp [runEvents]
  | cons c rest ih =>
    intro a hle
    simp only [List.map_cons, List.sum_cons] at hle
    simp only [List.map_cons, runEvents, List.sum_cons]
    by_cases hc : c.length = 0
    · have hp : httpEventHandler a (.onData true c) = (a, ESP_OK) := by
        simp [httpEventHandler, hc]
      rw [hp]
      obtain ⟨ihl, ihok, ihcap⟩ := ih a (by omega)
      refine ⟨?_, ?_, ?_⟩ <;> simp [ihl, ihok, ihcap, hc]
    · have h1 : ¬ a.buf.length ≥ a.sizeLimit := by omega
      have h2 : ¬ (a.sizeLimit - a.buf.length < c.length) := by omega
      have hmin : min c.length (a.sizeLimit - a.buf.length) = c.length := by omega
      have hp : httpEventHandler a (.onData true c)
          = ({ a with buf := a.buf ++ c }, ESP_OK) := by
        simp only [httpEventHandler]
        rw [if_neg (by simp), if_neg hc, if_neg h1, if_neg h2, hmin, List.take_length]
      rw [hp]
      obtain ⟨ihl, ihok, ihcap⟩ := ih { a with buf := a.buf ++ c } (by simp; omega)
      refine ⟨?_, ?_, ?_⟩ <;> simp_all
      omega

/-- C9: starting from an empty buffer (capacity 0), a header-received
event with key "Content-Length" whose value parses as `n ≤ ceiling`
pre-reserves capacity `min n ceiling`, and any following
data-received events totalling `n` bytes fill the buffer to exactly
`n` bytes with every event returning `ESP_OK` (no exhaustion
signalled). -/
theorem c9_content_length_roundtrip (a : AccState) (n : Nat) (v : String)
    (chunks : List (List Nat))
    (hbuf : a.buf = []) (hcap : a.bufCap = 0)
    (hv : sscanfU v = some n) (hn : n ≤ a.sizeLimit)
    (hsum : (chunks.map List.length).sum = n) :
    (runEvents a (HttpEventModel.onHeader (some "Content-Length") (some v)
        :: chunks.map (HttpEventModel.onData true))).1.buf.length = n ∧
    (runEvents a (HttpEventModel.onHeader (some "Content-Length") (some v)
        :: chunks.map (HttpEventModel.onData true))).2 = true ∧
    (runEvents a (HttpEventModel.onHeader (some "Content-Length") (some v)
        :: chunks.map (HttpEventModel.onData true))).1.bufCap
      = min n a.sizeLimit := by
  obtain ⟨hhb, hhc, hhs, hhk⟩ := httpEventHandler_contentLength a v n hv
  simp only [runEvents]
  obtain ⟨ihl, ihok, ihcap⟩ :=
    runEvents_data_fill chunks
      (httpEventHandler a (.onHeader (some "Content-Length") (some v))).1
      (by rw [hhb, hhs, hbuf, hsum]; simpa using hn)
  refine ⟨?_, ?_, ?_⟩
  · rw [ihl, hhb, hbuf, hsum]
    simp
  · rw [hhk, ihok]
    simp [ESP_OK]
  · rw [ihcap, hhc, hcap]
    simp [bufReserve]

/-- C9 witness: ceiling 10, Content-Length "3", then chunks of 2 and 1
bytes: the buffer ends at exactly 3 bytes, capacity 3, no exhaustion. -/
theorem c9_content_length_roundtrip_witness :
    (runEvents
      { buf := [], bufCap := 0, sizeLimit := 10
        collectHeaders := false, respHeaders := [] }
      (HttpEventModel.onHeader (some "Content-Length") (some "3")
        :: [[7, 8], [9]].map (HttpEventModel.onData true))).1.buf.length = 3 ∧
    (runEvents
      { buf := [], bufCap := 0, sizeLimit := 10
        collectHeaders := false, respHeaders := [] }
      (HttpEventModel.onHeader (some "Content-Length") (some "3")
        :: [[7, 8], [9]].map (HttpEventModel.onData true))).2 = true ∧
    (runEvents
      { buf := [], bufCap := 0, sizeLimit := 10
        collectHeaders := false, respHeaders := [] }
      (HttpEventModel.onHeader (some "Content-Length") (some "3")
        :: [[7, 8], [9]].map (HttpEventModel.onData true))).1.bufCap = min 3 10 :=
  c9_content_length_roundtrip
    { buf := [], bufCap := 0, sizeLimit := 10
      collectHeaders := false, respHeaders := [] }
    3 "3" [[7, 8], [9]] rfl rfl (by decide) (by decide) (by decide)

/-- Labels for the atomic transitions of the two-thread system: one per
controller operation (caller thread, each operation atomic) and one per
worker-loop step (one event-group operation or driver call each). -/
inductive Act where
  | aStartTask                                      -- startTask()
  | aEndTask                                        -- endTask(): set END_TASK
  | aEndAck                                         -- endTask(): consume TASK_ENDED
  | aStart (setupOk : Bool)                         -- start(...)
  | aRetry (setupOk : Bool)                         -- retry(...)
  | aAbort                                          -- abort()
  | aClearFin                                       -- clearFinished()
  | aInit                                           -- worker: setBits(TASK_RUNNING)
  | aWakeEnd                                        -- worker: waitBits matched END_TASK
  | aWakeStart                                      -- worker: waitBits matched START_REQUEST
  | aAssertOk                                       -- worker: assert block passes
  | aAssertFail                                     -- worker: an assert fires
  | aSetRunning                                     -- worker: setBits(REQUEST_RUNNING)
  | aClearBuf                                       -- worker: m_buf.clear()
  | aPerform (o : Int) (evs : List HttpEventModel)  -- worker: m_client.perform()
  | aAbortTaken                                     -- worker: clearBits(ABORT) found it set
  | aLoopAgain                                      -- worker: result transient, loop again
  | aLoopDone                                       -- worker: result final, exit loop
  | aStoreResult (status : Int)                     -- worker: store m_result/m_statusCode
  | aClose                                          -- worker: m_client.close()
  | aClearRun                                       -- worker: clearBits(RUNNING|ABORT)
  | aFinish                                         -- worker: setBits(REQUEST_FINISHED)
  | aExit                                           -- worker: task-exit cleanup
deriving DecidableEq, Repr

/-- The labeled transition relation.  Controller operations fire only
while the process is alive (`pc ≠ wdead`); worker steps are guarded by
the worker's program counter.  `waitBits(START|END, clear, any)` clears
the matched bits atomically, with the END_TASK branch taken first when
both are set (source lines 484-488). -/
def StepA : Act → EngineState → EngineState → Prop
  | .aStartTask, s, t => s.pc ≠ WPc.wdead ∧ t = (startTaskFn s).1
  | .aEndTask, s, t => s.pc ≠ WPc.wdead ∧ t = (endTaskFn s).1
  | .aEndAck, s, t => s.pc ≠ WPc.wdead ∧ s.taskEnded = true ∧
      t = { s with taskEnded := false }
  | .aStart ok, s, t => s.pc ≠ WPc.wdead ∧ t = (startFn s ok).1
  | .aRetry ok, s, t => s.pc ≠ WPc.wdead ∧ t = (retryFn s ok).1
  | .aAbort, s, t => s.pc ≠ WPc.wdead ∧ t = (abortFn s).1
  | .aClearFin, s, t => s.pc ≠ WPc.wdead ∧ t = { s with requestFinished := false }
  | .aInit, s, t => s.pc = WPc.winit ∧
      t = { s with taskRunning := true, pc := WPc.wwait }
  | .aWakeEnd, s, t => s.pc = WPc.wwait ∧ s.endTaskBit = true ∧
      t = { s with startRequest := false, endTaskBit := false, pc := WPc.wexit }
  | .aWakeStart, s, t => s.pc = WPc.wwait ∧ s.endTaskBit = false ∧
      s.startRequest = true ∧
      t = { s with startRequest := false, pc := WPc.wassert }
  | .aAssertOk, s, t => s.pc = WPc.wassert ∧ assertViolated s = false ∧
      t = { s with pc := WPc.wsetRunning }
  | .aAssertFail, s, t => s.pc = WPc.wassert ∧ assertViolated s = true ∧
      t = { s with pc := WPc.wdead }
  | .aSetRunning, s, t => s.pc = WPc.wsetRunning ∧
      t = { s with requestRunning := true, pc := WPc.wclearBuf }
  | .aClearBuf, s, t => s.pc = WPc.wclearBuf ∧
      t = { s with acc := { s.acc with buf := [] }, pc := WPc.wperform }
  | .aPerform o evs, s, t => s.pc = WPc.wperform ∧
      t = { s with acc := (runEvents s.acc evs).1, resultVar := o,
                   lastEvents := evs, pc := WPc.wabortCheck }
  | .aAbortTaken, s, t => s.pc = WPc.wabortCheck ∧ s.abortRequest = true ∧
      t = { s with abortRequest := false, resultVar := ESP_FAIL,
                   pc := WPc.wstoreResult }
  | .aLoopAgain, s, t => s.pc = WPc.wabortCheck ∧ s.abortRequest = false ∧
      (s.resultVar = EAGAIN ∨ s.resultVar = EINPROGRESS) ∧
      t = { s with pc := WPc.wclearBuf }
  | .aLoopDone, s, t => s.pc = WPc.wabortCheck ∧ s.abortRequest = false ∧
      ¬(s.resultVar = EAGAIN ∨ s.resultVar = EINPROGRESS) ∧
      t = { s with pc := WPc.wstoreResult }
  | .aStoreResult status, s, t => s.pc = WPc.wstoreResult ∧
      t = { s with mResult := s.resultVar, mStatusCode := status,
                   pc := WPc.wclose }
  | .aClose, s, t => s.pc = WPc.wclose ∧ t = { s with pc := WPc.wclearRun }
  | .aClearRun, s, t => s.pc = WPc.wclearRun ∧
      t = { s with requestRunning := false, abortRequest := false,
                   pc := WPc.wsetFinished }
  | .aFinish, s, t => s.pc = WPc.wsetFinished ∧
      t = { s with requestFinished := true, pc := WPc.wwait }
  | .aExit, s, t => s.pc = WPc.wexit ∧
      t = { s with taskRunning := false, taskEnded := true,
                   taskHandle := false, pc := WPc.notStarted }

/-- One step of the full system: any interleaving of atomic controller
operations and worker-loop steps. -/
def Step (s t : EngineState) : Prop := ∃ a, StepA a s t

/-- States reachable from the constructed engine by any interleaving. -/
inductive Reach : EngineState → Prop where
  | init : Reach initState
  | step {s t : EngineState} : Reach s → Step s t → Reach t

/-- A start or retry call. -/
def isStartAct : Act → Bool
  | .aStart _ => true
  | .aRetry _ => true
  | _ => false

/-- The worker is quiescent for the controller: blocked at its wait
point with no start pending, or not yet spawned. -/
def quiescent (s : EngineState) : Prop :=
  (s.pc = WPc.wwait ∧ s.startRequest = false) ∨ s.pc = WPc.notStarted

/-- Restricted step: `start`/`retry` are invoked only while the worker
is quiescent (the usage protocol of spec section 5: the caller issues a
new request only after the previous one completed). -/
def SafeStep (s t : EngineState) : Prop :=
  ∃ a, StepA a s t ∧ (isStartAct a = true → quiescent s)

/-- States reachable when the controller respects the quiescence
protocol for `start`/`retry`. -/
inductive ReachSafe : EngineState → Prop where
  | init : ReachSafe initState
  | step {s t : EngineState} : ReachSafe s → SafeStep s t → ReachSafe t

/-- Acts available in the "sequences of start calls" system: start
calls plus all worker steps (no endTask/retry/abort/clearFinished). -/
def startSysAct : Act → Bool
  | .aStart _ => true
  | .aStartTask => false
  | .aEndTask => false
  | .aEndAck => false
  | .aRetry _ => false
  | .aAbort => false
  | .aClearFin => false
  | _ => true

/-- One step of the start-calls-only system. -/
def StartStep (s t : EngineState) : Prop :=
  ∃ a, StepA a s t ∧ startSysAct a = true

/-- States reachable by sequences of `start` calls interleaved with
worker steps. -/
inductive ReachStart : EngineState → Prop where
  | init : ReachStart initState
  | step {s t : EngineState} : ReachStart s → StartStep s t → ReachStart t

theorem safeStepIsStep {s t : EngineState} (h : SafeStep s t) : Step s t := by
  obtain ⟨a, ha, _⟩ := h
  exact ⟨a, ha⟩

theorem startStepIsStep {s t : EngineState} (h : StartStep s t) : Step s t := by
  obtain ⟨a, ha, _⟩ := h
  exact ⟨a, ha⟩

theorem reachSafeIsReach {s : EngineState} (h : ReachSafe s) : Reach s := by
  induction h with
  | init => exact Reach.init
  | step _ hst ih => exact Reach.step ih (safeStepIsStep hst)

theorem reachStartIsReach {s : EngineState} (h : ReachStart s) : Reach s := by
  induction h with
  | init => exact Reach.init
  | step _ hst ih => exact Reach.step ih (startStepIsStep hst)

/-! Concrete executions used by the counterexamples and witnesses.
The canonical trace: one `start()` from the constructed state, the
worker picks the request up and reaches the retry loop. -/

def d0 : EngineState := initState

def d1 : EngineState := (startFn d0 true).1

def d2 : EngineState := { d1 with taskRunning := true, pc := WPc.wwait }

def d3 : EngineState := { d2 with startRequest := false, pc := WPc.wassert }

def d4 : EngineState := { d3 with pc := WPc.wsetRunning }

def d5 : EngineState := { d4 with requestRunning := true, pc := WPc.wclearBuf }

def d6 : EngineState :=
  { d5 with acc := { d5.acc with buf := [] }, pc := WPc.wperform }

def d7 : EngineState :=
  { d6 with acc := (runEvents d6.acc []).1, resultVar := 0,
            lastEvents := [], pc := WPc.wabortCheck }

def d8 : EngineState := { d7 with pc := WPc.wstoreResult }

theorem reachSafe_d1 : ReachSafe d1 :=
  ReachSafe.step ReachSafe.init
    ⟨Act.aStart true, ⟨by decide, rfl⟩, fun _ => Or.inr rfl⟩

theorem reachSafe_d2 : ReachSafe d2 :=
  ReachSafe.step reachSafe_d1
    ⟨Act.aInit, ⟨by decide, rfl⟩, fun h => nomatch h⟩

theorem reachSafe_d3 : ReachSafe d3 :=
  ReachSafe.step reachSafe_d2
    ⟨Act.aWakeStart, ⟨by decide, by decide, by decide, rfl⟩, fun h => nomatch h⟩

theorem reachSafe_d4 : ReachSafe d4 :=
  ReachSafe.step reachSafe_d3
    ⟨Act.aAssertOk, ⟨by decide, by decide, rfl⟩, fun h => nomatch h⟩

theorem reachSafe_d5 : ReachSafe d5 :=
  ReachSafe.step reachSafe_d4
    ⟨Act.aSetRunning, ⟨by decide, rfl⟩, fun h => nomatch h⟩

theorem reachSafe_d6 : ReachSafe d6 :=
  ReachSafe.step reachSafe_d5
    ⟨Act.aClearBuf, ⟨by decide, rfl⟩, fun h => nomatch h⟩

theorem reachSafe_d7 : ReachSafe d7 :=
  ReachSafe.step reachSafe_d6
    ⟨Act.aPerform 0 [], ⟨by decide, rfl⟩, fun h => nomatch h⟩

theorem reachSafe_d8 : ReachSafe d8 :=
  ReachSafe.step reachSafe_d7
    ⟨Act.aLoopDone, ⟨by decide, by decide, by decide, rfl⟩, fun h => nomatch h⟩

/-! Branch for the C2 counterexample: a second `start()` interleaved
between the worker's consumption of START_REQUEST and its
setBits(REQUEST_RUNNING). -/

def e5 : EngineState := (startFn d4 true).1

def e6 : EngineState := { e5 with requestRunning := true, pc := WPc.wclearBuf }

theorem reach_e5 : Reach e5 :=
  Reach.step (reachSafeIsReach reachSafe_d4) ⟨Act.aStart true, by decide, rfl⟩

theorem reach_e6 : Reach e6 :=
  Reach.step reach_e5 ⟨Act.aSetRunning, by decide, rfl⟩

/-! Branch for the C6 counterexample: the request completes with
transport success (`ESP_OK`) but HTTP status 404. -/

def g9 : EngineState :=
  { d8 with mResult := d8.resultVar, mStatusCode := 404, pc := WPc.wclose }

def g10 : EngineState := { g9 with pc := WPc.wclearRun }

def g11 : EngineState :=
  { g10 with requestRunning := false, abortRequest := false,
             pc := WPc.wsetFinished }

def g12 : EngineState := { g11 with requestFinished := true, pc := WPc.wwait }

theorem reach_g9 : Reach g9 :=
  Reach.step (reachSafeIsReach reachSafe_d8) ⟨Act.aStoreResult 404, by decide, rfl⟩

theorem reach_g10 : Reach g10 :=
  Reach.step reach_g9 ⟨Act.aClose, by decide, rfl⟩

theorem reach_g11 : Reach g11 :=
  Reach.step reach_g10 ⟨Act.aClearRun, by decide, rfl⟩

theorem reach_g12 : Reach g12 :=
  Reach.step reach_g11 ⟨Act.aFinish, by decide, rfl⟩

/-! Branch for the C3 witness: `abort()` succeeds while the request is
queued (START_REQUEST set, worker still waiting), then the worker runs
the request to completion. -/

def f3 : EngineState := (abortFn d2).1

def f4 : EngineState := { f3 with startRequest := false, pc := WPc.wassert }

def f5 : EngineState := { f4 with pc := WPc.wsetRunning }

def f6 : EngineState := { f5 with requestRunning := true, pc := WPc.wclearBuf }

def f7 : EngineState :=
  { f6 with acc := { f6.acc with buf := [] }, pc := WPc.wperform }

def f8 : EngineState :=
  { f7 with acc := (runEvents f7.acc []).1, resultVar := 0,
            lastEvents := [], pc := WPc.wabortCheck }

def f9 : EngineState :=
  { f8 with abortRequest := false, resultVar := ESP_FAIL,
            pc := WPc.wstoreResult }

def f10 : EngineState :=
  { f9 with mResult := f9.resultVar, mStatusCode := 200, pc := WPc.wclose }

def f11 : EngineState := { f10 with pc := WPc.wclearRun }

def f12 : EngineState :=
  { f11 with requestRunning := false, abortRequest := false,
             pc := WPc.wsetFinished }

theorem reach_f3 : Reach f3 :=
  Reach.step (reachSafeIsReach reachSafe_d2) ⟨Act.aAbort, by decide, rfl⟩

/-- The flag reset performed by a successful `startTask`. -/
def resetOf (s : EngineState) : EngineState :=
  { s with taskRunning := false, startRequest := false,
           requestRunning := false, requestFinished := false,
           endTaskBit := false, taskEnded := false, abortRequest := false,
           taskHandle := true, pc := WPc.winit }

theorem startTaskFn_shape (s : EngineState) :
    (startTaskFn s).1 = s ∨
    (s.taskHandle = false ∧ (startTaskFn s).1 = resetOf s) := by
  unfold startTaskFn resetOf
  split_ifs with h1 h2
  · left; rfl
  · left; rfl
  · right; exact ⟨by simpa using h1, rfl⟩

theorem endTaskFn_shape (s : EngineState) :
    (endTaskFn s).1 = s ∨ (endTaskFn s).1 = { s with endTaskBit := true } := by
  unfold endTaskFn
  split_ifs <;> simp

theorem abortFn_shape (s : EngineState) :
    (abortFn s).1 = s ∨ (abortFn s).1 = { s with abortRequest := true } := by
  unfold abortFn
  split_ifs <;> simp

theorem startBody_shape (s : EngineState) (ok : Bool) :
    (startBody s ok).1 = { s with hasClient := s.hasClient } ∨
    (startBody s ok).1 = { s with hasClient := true } ∨
    (startBody s ok).1 = { s with hasClient := true,
                                  acc := { s.acc with buf := [] },
                                  requestFinished := false,
                                  startRequest := true } := by
  unfold startBody
  split_ifs <;> simp

theorem retryBody_shape (s : EngineState) (ok : Bool) :
    (retryBody s ok).1 = s ∨
    (retryBody s ok).1 = { s with acc := { s.acc with buf := [] },
                                  requestFinished := false,
                                  startRequest := true } := by
  unfold retryBody
  split_ifs <;> simp

theorem retryBody_noclient (s : EngineState) (ok : Bool)
    (hc : s.hasClient = false) : (retryBody s ok).1 = s := by
  unfold retryBody
  split_ifs <;> simp_all

theorem startFn_handle_true (s : EngineState) (ok : Bool)
    (h : s.taskHandle = true) : startFn s ok = startBody s ok := by
  unfold startFn
  rw [if_neg (by simp [h])]

theorem startFn_handle_false (s : EngineState) (ok : Bool)
    (h : s.taskHandle = false) (h2 : s.taskRunning = false) :
    startFn s ok = startBody (resetOf s) ok := by
  unfold startFn startTaskFn resetOf
  rw [if_pos h, if_neg (by simp [h]), if_neg (by simp [h2])]

theorem startFn_handle_false_running (s : EngineState) (ok : Bool)
    (h : s.taskHandle = false) (h2 : s.taskRunning = true) :
    startFn s ok = (s, some "http task already running") := by
  unfold startFn startTaskFn
  rw [if_pos h, if_neg (by simp [h]), if_pos h2]

theorem retryFn_handle_true (s : EngineState) (ok : Bool)
    (h : s.taskHandle = true) : retryFn s ok = retryBody s ok := by
  unfold retryFn
  rw [if_neg (by simp [h])]

theorem retryFn_handle_false (s : EngineState) (ok : Bool)
    (h : s.taskHandle = false) (h2 : s.taskRunning = false) :
    retryFn s ok = retryBody (resetOf s) ok := by
  unfold retryFn startTaskFn resetOf
  rw [if_pos h, if_neg (by simp [h]), if_neg (by simp [h2])]

theorem retryFn_handle_false_running (s : EngineState) (ok : Bool)
    (h : s.taskHandle = false) (h2 : s.taskRunning = true) :
    retryFn s ok = (s, some "http task already running") := by
  unfold retryFn startTaskFn
  rw [if_pos h, if_neg (by simp [h]), if_pos h2]

/-- Master invariant of the full system: the worker holds a task
handle at every live program point, and REQUEST_RUNNING is already
clear when the worker is about to set REQUEST_FINISHED. -/
def MInv (s : EngineState) : Prop :=
  (s.pc ≠ WPc.notStarted → s.pc ≠ WPc.wdead → s.taskHandle = true) ∧
  (s.pc = WPc.wsetFinished → s.requestRunning = false)

theorem reach_minv {s : EngineState} (h : Reach s) : MInv s := by
  induction h with
  | init => exact ⟨fun h1 _ => absurd rfl h1, fun _ => rfl⟩
  | @step s t hr hst ih =>
    obtain ⟨ih1, ih2⟩ := ih
    obtain ⟨a, ha⟩ := hst
    cases a with
    | aStartTask =>
      obtain ⟨hpc, ht⟩ := ha
      subst ht
      rcases startTaskFn_shape s with hs | ⟨hh, hs⟩ <;> rw [hs]
      · exact ⟨ih1, ih2⟩
      · exact ⟨fun _ _ => rfl, fun h1 => nomatch h1⟩
    | aEndTask =>
      obtain ⟨hpc, ht⟩ := ha
      subst ht
      rcases endTaskFn_shape s with hs | hs <;> rw [hs]
      · exact ⟨ih1, ih2⟩
      · exact ⟨ih1, ih2⟩
    | aEndAck =>
      obtain ⟨hpc, hte, ht⟩ := ha
      subst ht
      exact ⟨ih1, ih2⟩
    | aStart ok =>
      obtain ⟨hpc, ht⟩ := ha
      subst ht
      cases hh : s.taskHandle with
      | true =>
        rw [startFn_handle_true s ok hh]
        rcases startBody_shape s ok with hs | hs | hs <;> rw [hs]
        · exact ⟨fun a b => ih1 a b, ih2⟩
        · exact ⟨fun a b => ih1 a b, ih2⟩
        · exact ⟨fun a b => ih1 a b, ih2⟩
      | false =>
        cases hr2 : s.taskRunning with
        | true =>
          rw [startFn_handle_false_running s ok hh hr2]
          exact ⟨ih1, ih2⟩
        | false =>
          rw [startFn_handle_false s ok hh hr2]
          rcases startBody_shape (resetOf s) ok with hs | hs | hs <;> rw [hs] <;>
            exact ⟨fun _ _ => rfl, fun h1 => nomatch h1⟩
    | aRetry ok =>
      obtain ⟨hpc, ht⟩ := ha
      subst ht
      cases hh : s.taskHandle with
      | true =>
        rw [retryFn_handle_true s ok hh]
        rcases retryBody_shape s ok with hs | hs <;> rw [hs]
        · exact ⟨ih1, ih2⟩
        · exact ⟨fun a b => ih1 a b, ih2⟩
      | false =>
        cases hr2 : s.taskRunning with
        | true =>
          rw [retryFn_handle_false_running s ok hh hr2]
          exact ⟨ih1, ih2⟩
        | false =>
          rw [retryFn_handle_false s ok hh hr2]
          rcases retryBody_shape (resetOf s) ok with hs | hs <;> rw [hs] <;>
            exact ⟨fun _ _ => rfl, fun h1 => nomatch h1⟩
    | aAbort =>
      obtain ⟨hpc, ht⟩ := ha
      subst ht
      rcases abortFn_shape s with hs | hs <;> rw [hs]
      · exact ⟨ih1, ih2⟩
      · exact ⟨ih1, ih2⟩
    | aClearFin =>
      obtain ⟨hpc, ht⟩ := ha
      subst ht
      exact ⟨ih1, ih2⟩
    | aInit =>
      obtain ⟨hpc, ht⟩ := ha
      subst ht
      exact ⟨fun _ _ => ih1 (by simp [hpc]) (by simp [hpc]), fun h1 => nomatch h1⟩
    | aWakeEnd =>
      obtain ⟨hpc, hend, ht⟩ := ha
      subst ht
      exact ⟨fun _ _ => ih1 (by simp [hpc]) (by simp [hpc]), fun h1 => nomatch h1⟩
    | aWakeStart =>
      obtain ⟨hpc, hend, hstr, ht⟩ := ha
      subst ht
      exact ⟨fun _ _ => ih1 (by simp [hpc]) (by simp [hpc]), fun h1 => nomatch h1⟩
    | aAssertOk =>
      obtain ⟨hpc, hok, ht⟩ := ha
      subst ht
      exact ⟨fun _ _ => ih1 (by simp [hpc]) (by simp [hpc]), fun h1 => nomatch h1⟩
    | aAssertFail =>
      obtain ⟨hpc, hbad, ht⟩ := ha
      subst ht
      exact ⟨fun _ h2 => absurd rfl h2, fun h1 => nomatch h1⟩
    | aSetRunning =>
      obtain ⟨hpc, ht⟩ := ha
      subst ht
      exact ⟨fun _ _ => ih1 (by simp [hpc]) (by simp [hpc]), fun h1 => nomatch h1⟩
    | aClearBuf =>
      obtain ⟨hpc, ht⟩ := ha
      subst ht
      exact ⟨fun _ _ => ih1 (by simp [hpc]) (by simp [hpc]), fun h1 => nomatch h1⟩
    | aPerform o evs =>
      obtain ⟨hpc, ht⟩ := ha
      subst ht
      exact ⟨fun _ _ => ih1 (by simp [hpc]) (by simp [hpc]), fun h1 => nomatch h1⟩
    | aAbortTaken =>
      obtain ⟨hpc, hab, ht⟩ := ha
      subst ht
      exact ⟨fun _ _ => ih1 (by simp [hpc]) (by simp [hpc]), fun h1 => nomatch h1⟩
    | aLoopAgain =>
      obtain ⟨hpc, hab, htr, ht⟩ := ha
      subst ht
      exact ⟨fun _ _ => ih1 (by simp [hpc]) (by simp [hpc]), fun h1 => nomatch h1⟩
    | aLoopDone =>
      obtain ⟨hpc, hab, htr, ht⟩ := ha
      subst ht
      exact ⟨fun _ _ => ih1 (by simp [hpc]) (by simp [hpc]), fun h1 => nomatch h1⟩
    | aStoreResult status =>
      obtain ⟨hpc, ht⟩ := ha
      subst ht
      exact ⟨fun _ _ => ih1 (by simp [hpc]) (by simp [hpc]), fun h1 => nomatch h1⟩
    | aClose =>
      obtain ⟨hpc, ht⟩ := ha
      subst ht
      exact ⟨fun _ _ => ih1 (by simp [hpc]) (by simp [hpc]), fun h1 => nomatch h1⟩
    | aClearRun =>
      obtain ⟨hpc, ht⟩ := ha
      subst ht
      exact ⟨fun _ _ => ih1 (by simp [hpc]) (by simp [hpc]), fun _ => rfl⟩
    | aFinish =>
      obtain ⟨hpc, ht⟩ := ha
      subst ht
      exact ⟨fun _ _ => ih1 (by simp [hpc]) (by simp [hpc]), fun h1 => nomatch h1⟩
    | aExit =>
      obtain ⟨hpc, ht⟩ := ha
      subst ht
      exact ⟨fun h1 _ => absurd rfl h1, fun h1 => nomatch h1⟩

/-- C2 counterexample: the state `e6` — reached by startTask, a first
start, the worker consuming START_REQUEST and passing its assert
block, a second start interleaved before setBits(REQUEST_RUNNING), and
then that setBits — is reachable by an interleaving of the controller
operations and worker-loop steps, yet has START_REQUEST and
REQUEST_RUNNING simultaneously set, refuting the claimed invariant. -/
theorem c2_flag_invariant_cex :
    Reach e6 ∧ e6.startRequest = true ∧ e6.requestRunning = true :=
  ⟨reach_e6, by decide, by decide⟩

/-- Steps other than the worker's completion transition
(setBits(REQUEST_FINISHED)) and the worker's END_TASK exit path. -/
def StepNF (s t : EngineState) : Prop :=
  Step s t ∧ ¬(s.pc = WPc.wsetFinished ∧ t.pc = WPc.wwait) ∧
  t.pc ≠ WPc.wexit

/-- The current request is doomed to fail: an abort is pending before
the next abort check, or the failure code is already latched in the
loop variable / in `m_result`. -/
def doomed (s : EngineState) : Prop :=
  (s.pc = WPc.wwait ∧ s.startRequest = true ∧ s.abortRequest = true) ∨
  ((s.pc = WPc.wassert ∨ s.pc = WPc.wsetRunning ∨ s.pc = WPc.wclearBuf ∨
    s.pc = WPc.wperform ∨ s.pc = WPc.wabortCheck) ∧ s.abortRequest = true) ∨
  (s.pc = WPc.wstoreResult ∧ s.resultVar = ESP_FAIL) ∨
  ((s.pc = WPc.wclose ∨ s.pc = WPc.wclearRun ∨ s.pc = WPc.wsetFinished) ∧
    s.mResult = ESP_FAIL) ∨
  s.pc = WPc.wdead

theorem doomed_mono {s t : EngineState} (hd : doomed s) (hpc : t.pc = s.pc)
    (hab : t.abortRequest = s.abortRequest) (hrv : t.resultVar = s.resultVar)
    (hmr : t.mResult = s.mResult)
    (hsr : s.startRequest = true → t.startRequest = true) : doomed t := by
  unfold doomed at hd ⊢
  rw [hpc, hab, hrv, hmr]
  rcases hd with ⟨h1, h2, h3⟩ | h | h | h | h
  · exact Or.inl ⟨h1, hsr h2, h3⟩
  · exact Or.inr (Or.inl h)
  · exact Or.inr (Or.inr (Or.inl h))
  · exact Or.inr (Or.inr (Or.inr (Or.inl h)))
  · exact Or.inr (Or.inr (Or.inr (Or.inr h)))

theorem doomed_step {s t : EngineState} (hr : Reach s) (hd : doomed s)
    (hst : StepNF s t) : doomed t := by
  obtain ⟨⟨a, ha⟩, hnf, hnx⟩ := hst
  obtain ⟨hminv1, hminv2⟩ := reach_minv hr
  cases a with
  | aStartTask =>
    obtain ⟨hpc, ht⟩ := ha
    subst ht
    rcases startTaskFn_shape s with hs | ⟨hh, hs⟩
    · rw [hs]; exact hd
    · exfalso
      have : s.pc = WPc.notStarted := by
        by_contra hne
        rw [hminv1 hne hpc] at hh
        exact nomatch hh
      unfold doomed at hd
      simp [this] at hd
  | aEndTask =>
    obtain ⟨hpc, ht⟩ := ha
    subst ht
    rcases endTaskFn_shape s with hs | hs <;> rw [hs]
    · exact hd
    · exact doomed_mono hd rfl rfl rfl rfl fun h => h
  | aEndAck =>
    obtain ⟨hpc, hte, ht⟩ := ha
    subst ht
    exact doomed_mono hd rfl rfl rfl rfl fun h => h
  | aStart ok =>
    obtain ⟨hpc, ht⟩ := ha
    subst ht
    cases hh : s.taskHandle with
    | true =>
      rw [startFn_handle_true s ok hh]
      rcases startBody_shape s ok with hs | hs | hs <;> rw [hs]
      · exact doomed_mono hd rfl rfl rfl rfl fun h => h
      · exact doomed_mono hd rfl rfl rfl rfl fun h => h
      · exact doomed_mono hd rfl rfl rfl rfl fun _ => rfl
    | false =>
      exfalso
      have : s.pc = WPc.notStarted := by
        by_contra hne
        rw [hminv1 hne hpc] at hh
        exact nomatch hh
      unfold doomed at hd
      simp [this] at hd
  | aRetry ok =>
    obtain ⟨hpc, ht⟩ := ha
    subst ht
    cases hh : s.taskHandle with
    | true =>
      rw [retryFn_handle_true s ok hh]
      rcases retryBody_shape s ok with hs | hs <;> rw [hs]
      · exact hd
      · exact doomed_mono hd rfl rfl rfl rfl fun _ => rfl
    | false =>
      exfalso
      have : s.pc = WPc.notStarted := by
        by_contra hne
        rw [hminv1 hne hpc] at hh
        exact nomatch hh
      unfold doomed at hd
      simp [this] at hd
  | aAbort =>
    obtain ⟨hpc, ht⟩ := ha
    subst ht
    rcases abortFn_shape s with hs | hs <;> rw [hs]
    · exact hd
    · unfold doomed at hd ⊢
      rcases hd with ⟨h1, h2, h3⟩ | ⟨h1, h2⟩ | h | h | h
      · exact Or.inl ⟨h1, h2, rfl⟩
      · exact Or.inr (Or.inl ⟨h1, rfl⟩)
      · exact Or.inr (Or.inr (Or.inl h))
      · exact Or.inr (Or.inr (Or.inr (Or.inl h)))
      · exact Or.inr (Or.inr (Or.inr (Or.inr h)))
  | aClearFin =>
    obtain ⟨hpc, ht⟩ := ha
    subst ht
    exact doomed_mono hd rfl rfl rfl rfl fun h => h
  | aInit =>
    obtain ⟨hpc, ht⟩ := ha
    exfalso
    unfold doomed at hd
    simp [hpc] at hd
  | aWakeEnd =>
    obtain ⟨hpc, hend, ht⟩ := ha
    subst ht
    exact absurd rfl hnx
  | aWakeStart =>
    obtain ⟨hpc, hend, hstr, ht⟩ := ha
    subst ht
    unfold doomed at hd ⊢
    rcases hd with ⟨h1, h2, h3⟩ | ⟨h1, h2⟩ | ⟨h1, h2⟩ | ⟨h1, h2⟩ | h1 <;>
      rw [hpc] at * <;> first
        | exact Or.inr (Or.inl ⟨Or.inl rfl, by assumption⟩)
        | simp_all
  | aAssertOk =>
    obtain ⟨hpc, hok, ht⟩ := ha
    subst ht
    unfold doomed at hd ⊢
    rcases hd with ⟨h1, h2, h3⟩ | ⟨h1, h2⟩ | ⟨h1, h2⟩ | ⟨h1, h2⟩ | h1 <;>
      first
        | (exact Or.inr (Or.inl ⟨Or.inr (Or.inl rfl), by assumption⟩))
        | simp_all
  | aAssertFail =>
    obtain ⟨hpc, hbad, ht⟩ := ha
    subst ht
    unfold doomed
    exact Or.inr (Or.inr (Or.inr (Or.inr rfl)))
  | aSetRunning =>
    obtain ⟨hpc, ht⟩ := ha
    subst ht
    unfold doomed at hd ⊢
    rcases hd with ⟨h1, h2, h3⟩ | ⟨h1, h2⟩ | ⟨h1, h2⟩ | ⟨h1, h2⟩ | h1 <;>
      first
        | (exact Or.inr (Or.inl ⟨Or.inr (Or.inr (Or.inl rfl)), by assumption⟩))
        | simp_all
  | aClearBuf =>
    obtain ⟨hpc, ht⟩ := ha
    subst ht
    unfold doomed at hd ⊢
    rcases hd with ⟨h1, h2, h3⟩ | ⟨h1, h2⟩ | ⟨h1, h2⟩ | ⟨h1, h2⟩ | h1 <;>
      first
        | (exact Or.inr (Or.inl ⟨Or.inr (Or.inr (Or.inr (Or.inl rfl))), by assumption⟩))
        | simp_all
  | aPerform o evs =>
    obtain ⟨hpc, ht⟩ := ha
    subst ht
    unfold doomed at hd ⊢
    rcases hd with ⟨h1, h2, h3⟩ | ⟨h1, h2⟩ | ⟨h1, h2⟩ | ⟨h1, h2⟩ | h1 <;>
      first
        | (exact Or.inr (Or.inl ⟨Or.inr (Or.inr (Or.inr (Or.inr rfl))), by assumption⟩))
        | simp_all
  | aAbortTaken =>
    obtain ⟨hpc, hab, ht⟩ := ha
    subst ht
    unfold doomed
    exact Or.inr (Or.inr (Or.inl ⟨rfl, rfl⟩))
  | aLoopAgain =>
    obtain ⟨hpc, hab, htr, ht⟩ := ha
    exfalso
    unfold doomed at hd
    rcases hd with ⟨h1, h2, h3⟩ | ⟨h1, h2⟩ | ⟨h1, h2⟩ | ⟨h1, h2⟩ | h1 <;>
      simp_all
  | aLoopDone =>
    obtain ⟨hpc, hab, htr, ht⟩ := ha
    exfalso
    unfold doomed at hd
    rcases hd with ⟨h1, h2, h3⟩ | ⟨h1, h2⟩ | ⟨h1, h2⟩ | ⟨h1, h2⟩ | h1 <;>
      simp_all
  | aStoreResult status =>
    obtain ⟨hpc, ht⟩ := ha
    subst ht
    unfold doomed at hd ⊢
    rcases hd with ⟨h1, h2, h3⟩ | ⟨h1, h2⟩ | ⟨h1, h2⟩ | ⟨h1, h2⟩ | h1 <;>
      first
        | (exact Or.inr (Or.inr (Or.inr (Or.inl ⟨Or.inl rfl, by assumption⟩))))
        | simp_all
  | aClose =>
    obtain ⟨hpc, ht⟩ := ha
    subst ht
    unfold doomed at hd ⊢
    rcases hd with ⟨h1, h2, h3⟩ | ⟨h1, h2⟩ | ⟨h1, h2⟩ | ⟨h1, h2⟩ | h1 <;>
      first
        | (exact Or.inr (Or.inr (Or.inr (Or.inl ⟨Or.inr (Or.inl rfl), by assumption⟩))))
        | simp_all
  | aClearRun =>
    obtain ⟨hpc, ht⟩ := ha
    subst ht
    unfold doomed at hd ⊢
    rcases hd with ⟨h1, h2, h3⟩ | ⟨h1, h2⟩ | ⟨h1, h2⟩ | ⟨h1, h2⟩ | h1 <;>
      first
        | (exact Or.inr (Or.inr (Or.inr (Or.inl ⟨Or.inr (Or.inr rfl), by assumption⟩))))
        | simp_all
  | aFinish =>
    obtain ⟨hpc, ht⟩ := ha
    subst ht
    exact absurd ⟨hpc, rfl⟩ hnf
  | aExit =>
    obtain ⟨hpc, ht⟩ := ha
    exfalso
    unfold doomed at hd
    simp [hpc] at hd

theorem doomed_trans {s t : EngineState} (hr : Reach s) (hd : doomed s)
    (hp : Relation.ReflTransGen StepNF s t) : doomed t ∧ Reach t := by
  induction hp with
  | refl => exact ⟨hd, hr⟩
  | tail hab hbc ih =>
    exact ⟨doomed_step ih.2 ih.1 hbc, Reach.step ih.2 hbc.1⟩

/-- C3: if `abort()` has taken effect (ABORT_REQUEST set) while the
request is still queued at the worker's wait point, or picked up but
with no perform-step executed yet, then along every continuation that
does not drop the request (no END_TASK exit) the worker's completion
transition — the next setBits(REQUEST_FINISHED), from program point
`wsetFinished` — stores `ESP_FAIL`, and `result()` on the completed
state reports the abort-path failure, never success. -/
theorem c3_abort_before_perform_fails (s t : EngineState)
    (hr : Reach s) (hab : s.abortRequest = true)
    (hpre : (s.pc = WPc.wwait ∧ s.startRequest = true) ∨ s.pc = WPc.wassert ∨
            s.pc = WPc.wsetRunning ∨ s.pc = WPc.wclearBuf ∨ s.pc = WPc.wperform)
    (hp : Relation.ReflTransGen StepNF s t)
    (hfin : t.pc = WPc.wsetFinished) :
    t.mResult = ESP_FAIL ∧
    resultFn { t with requestFinished := true, pc := WPc.wwait }
      = some ("http request failed: " ++ espErrToName ESP_FAIL) := by
  have hds : doomed s := by
    unfold doomed
    rcases hpre with ⟨h1, h2⟩ | h | h | h | h
    · exact Or.inl ⟨h1, h2, hab⟩
    · exact Or.inr (Or.inl ⟨Or.inl h, hab⟩)
    · exact Or.inr (Or.inl ⟨Or.inr (Or.inl h), hab⟩)
    · exact Or.inr (Or.inl ⟨Or.inr (Or.inr (Or.inl h)), hab⟩)
    · exact Or.inr (Or.inl ⟨Or.inr (Or.inr (Or.inr (Or.inl h))), hab⟩)
  obtain ⟨hdt, hrt⟩ := doomed_trans hr hds hp
  have hmr : t.mResult = ESP_FAIL := by
    unfold doomed at hdt
    rcases hdt with ⟨h1, _⟩ | ⟨h1, _⟩ | ⟨h1, _⟩ | ⟨h1, h2⟩ | h1 <;> simp_all
  have hrun : t.requestRunning = false := (reach_minv hrt).2 hfin
  refine ⟨hmr, ?_⟩
  simp [resultFn, hrun, hmr, ESP_FAIL, ESP_OK]

/-- C3 witness: the concrete trace `f3 → … → f12` — abort while
queued, wake, one perform-step, abort check forcing `ESP_FAIL`, store,
close, cleanup — reaches the completion point with `ESP_FAIL` stored,
and `result()` on the completed state reports the failure. -/
theorem c3_abort_before_perform_fails_witness :
    f12.mResult = ESP_FAIL ∧
    resultFn { f12 with requestFinished := true, pc := WPc.wwait }
      = some ("http request failed: " ++ espErrToName ESP_FAIL) := by
  have s1 : StepNF f3 f4 :=
    ⟨⟨Act.aWakeStart, by decide, by decide, by decide, rfl⟩, by decide, by decide⟩
  have s2 : StepNF f4 f5 :=
    ⟨⟨Act.aAssertOk, by decide, by decide, rfl⟩, by decide, by decide⟩
  have s3 : StepNF f5 f6 :=
    ⟨⟨Act.aSetRunning, by decide, rfl⟩, by decide, by decide⟩
  have s4 : StepNF f6 f7 :=
    ⟨⟨Act.aClearBuf, by decide, rfl⟩, by decide, by decide⟩
  have s5 : StepNF f7 f8 :=
    ⟨⟨Act.aPerform 0 [], by decide, rfl⟩, by decide, by decide⟩
  have s6 : StepNF f8 f9 :=
    ⟨⟨Act.aAbortTaken, by decide, by decide, rfl⟩, by decide, by decide⟩
  have s7 : StepNF f9 f10 :=
    ⟨⟨Act.aStoreResult 200, by decide, rfl⟩, by decide, by decide⟩
  have s8 : StepNF f10 f11 :=
    ⟨⟨Act.aClose, by decide, rfl⟩, by decide, by decide⟩
  have s9 : StepNF f11 f12 :=
    ⟨⟨Act.aClearRun, by decide, rfl⟩, by decide, by decide⟩
  exact c3_abort_before_perform_fails f3 f12 reach_f3 (by decide)
    (Or.inl ⟨by decide, by decide⟩)
    (.tail (.tail (.tail (.tail (.tail (.tail (.tail (.tail
      (.tail .refl s1) s2) s3) s4) s5) s6) s7) s8) s9)
    (by decide)

/-- Program points of the per-request block between
setBits(REQUEST_RUNNING) and clearBits(REQUEST_RUNNING). -/
def midPc : WPc → Bool
  | .wclearBuf => true
  | .wperform => true
  | .wabortCheck => true
  | .wstoreResult => true
  | .wclose => true
  | .wclearRun => true
  | _ => false

/-- Program points outside any request execution. -/
def idlePc : WPc → Bool
  | .notStarted => true
  | .winit => true
  | .wwait => true
  | .wexit => true
  | .wdead => true
  | _ => false

/-- Program points after the perform loop of the current request. -/
def postPc : WPc → Bool
  | .wabortCheck => true
  | .wstoreResult => true
  | .wclose => true
  | .wclearRun => true
  | .wsetFinished => true
  | _ => false

/-- Inductive invariant of the quiescence-protocol system. -/
def SInv (s : EngineState) : Prop :=
  (s.pc ≠ WPc.notStarted → s.pc ≠ WPc.wdead → s.taskHandle = true) ∧
  ((s.pc = WPc.wassert ∨ s.pc = WPc.wsetRunning) →
    s.startRequest = false ∧ s.requestRunning = false ∧
    s.requestFinished = false ∧ s.hasClient = true) ∧
  (midPc s.pc = true → s.requestRunning = true ∧ s.startRequest = false ∧
    s.requestFinished = false) ∧
  (s.pc = WPc.wsetFinished → s.requestRunning = false ∧
    s.startRequest = false ∧ s.requestFinished = false) ∧
  (idlePc s.pc = true → s.requestRunning = false) ∧
  (s.startRequest = true → s.hasClient = true ∧ s.requestFinished = false ∧
    s.requestRunning = false) ∧
  (s.pc = WPc.wperform → s.acc.buf = []) ∧
  (postPc s.pc = true →
    s.acc.buf = bufFold s.acc.sizeLimit [] s.lastEvents)

theorem reachSafe_sinv {s : EngineState} (h : ReachSafe s) : SInv s := by
  induction h with
  | init =>
    unfold SInv
    refine ⟨fun h1 _ => absurd rfl h1, ?_, ?_, ?_, ?_, ?_, ?_, ?_⟩ <;> simp [midPc, idlePc, postPc, initState]
  | @step s t hr hst ih =>
    obtain ⟨a, ha, hguard⟩ := hst
    cases a with
    | aStartTask =>
      obtain ⟨hpc, ht⟩ := ha
      subst ht
      rcases startTaskFn_shape s with hs | ⟨hh, hs⟩ <;> rw [hs]
      · exact ih
      · unfold SInv
        refine ⟨fun _ _ => rfl, ?_, ?_, ?_, ?_, ?_, ?_, ?_⟩ <;>
          simp [resetOf, midPc, idlePc, postPc]
    | aEndTask =>
      obtain ⟨hpc, ht⟩ := ha
      subst ht
      rcases endTaskFn_shape s with hs | hs <;> rw [hs]
      · exact ih
      · unfold SInv at ih ⊢
        simp_all
    | aEndAck =>
      obtain ⟨hpc, hte, ht⟩ := ha
      subst ht
      unfold SInv at ih ⊢
      simp_all
    | aStart ok =>
      have hq : quiescent s := hguard rfl
      obtain ⟨hpc2, ht⟩ := ha
      subst ht
      obtain ⟨i1, i2, i3, i4, i5, i6, i7, i8⟩ := ih
      rcases hq with ⟨hw, hns⟩ | hn
      · have hh : s.taskHandle = true := i1 (by simp [hw]) (by simp [hw])
        have hrun : s.requestRunning = false := i5 (by simp [hw, idlePc])
        rw [startFn_handle_true s ok hh]
        rcases startBody_shape s ok with hs | hs | hs <;> rw [hs] <;>
          unfold SInv <;>
          refine ⟨?_, ?_, ?_, ?_, ?_, ?_, ?_, ?_⟩ <;>
          simp_all [midPc, idlePc, postPc, hw]
      · cases hh : s.taskHandle with
        | true =>
          have hrun : s.requestRunning = false := i5 (by simp [hn, idlePc])
          rw [startFn_handle_true s ok hh]
          rcases startBody_shape s ok with hs | hs | hs <;> rw [hs] <;>
            unfold SInv <;>
            refine ⟨?_, ?_, ?_, ?_, ?_, ?_, ?_, ?_⟩ <;>
            simp_all [midPc, idlePc, postPc, hn]
        | false =>
          cases hr2 : s.taskRunning with
          | true =>
            rw [startFn_handle_false_running s ok hh hr2]
            exact ⟨i1, i2, i3, i4, i5, i6, i7, i8⟩
          | false =>
            rw [startFn_handle_false s ok hh hr2]
            rcases startBody_shape (resetOf s) ok with hs | hs | hs <;> rw [hs] <;>
              unfold SInv <;>
              refine ⟨?_, ?_, ?_, ?_, ?_, ?_, ?_, ?_⟩ <;>
              simp_all [midPc, idlePc, postPc, resetOf]
    | aRetry ok =>
      have hq : quiescent s := hguard rfl
      obtain ⟨hpc2, ht⟩ := ha
      subst ht
      obtain ⟨i1, i2, i3, i4, i5, i6, i7, i8⟩ := ih
      rcases hq with ⟨hw, hns⟩ | hn
      · have hh : s.taskHandle = true := i1 (by simp [hw]) (by simp [hw])
        have hrun : s.requestRunning = false := i5 (by simp [hw, idlePc])
        rw [retryFn_handle_true s ok hh]
        by_cases hc : s.hasClient = true
        · rcases retryBody_shape s ok with hs | hs <;> rw [hs]
          · exact ⟨i1, i2, i3, i4, i5, i6, i7, i8⟩
          · unfold SInv
            refine ⟨?_, ?_, ?_, ?_, ?_, ?_, ?_, ?_⟩ <;>
              simp_all [midPc, idlePc, postPc, hw]
        · rw [retryBody_noclient s ok (by simpa using hc)]
          exact ⟨i1, i2, i3, i4, i5, i6, i7, i8⟩
      · cases hh : s.taskHandle with
        | true =>
          have hrun : s.requestRunning = false := i5 (by simp [hn, idlePc])
          rw [retryFn_handle_true s ok hh]
          by_cases hc : s.hasClient = true
          · rcases retryBody_shape s ok with hs | hs <;> rw [hs]
            · exact ⟨i1, i2, i3, i4, i5, i6, i7, i8⟩
            · unfold SInv
              refine ⟨?_, ?_, ?_, ?_, ?_, ?_, ?_, ?_⟩ <;>
                simp_all [midPc, idlePc, postPc, hn]
          · rw [retryBody_noclient s ok (by simpa using hc)]
            exact ⟨i1, i2, i3, i4, i5, i6, i7, i8⟩
        | false =>
          cases hr2 : s.taskRunning with
          | true =>
            rw [retryFn_handle_false_running s ok hh hr2]
            exact ⟨i1, i2, i3, i4, i5, i6, i7, i8⟩
          | false =>
            rw [retryFn_handle_false s ok hh hr2]
            by_cases hc : s.hasClient = true
            · rcases retryBody_shape (resetOf s) ok with hs | hs <;> rw [hs] <;>
                unfold SInv <;>
                refine ⟨?_, ?_, ?_, ?_, ?_, ?_, ?_, ?_⟩ <;>
                simp_all [midPc, idlePc, postPc, resetOf]
            · rw [retryBody_noclient (resetOf s) ok (by simpa [resetOf] using hc)]
              unfold SInv
              refine ⟨?_, ?_, ?_, ?_, ?_, ?_, ?_, ?_⟩ <;>
                simp_all [midPc, idlePc, postPc, resetOf]
    | aAbort =>
      obtain ⟨hpc, ht⟩ := ha
      subst ht
      rcases abortFn_shape s with hs | hs <;> rw [hs]
      · exact ih
      · unfold SInv at ih ⊢
        simp_all
    | aClearFin =>
      obtain ⟨hpc, ht⟩ := ha
      subst ht
      unfold SInv at ih ⊢
      simp_all
    | aInit =>
      obtain ⟨hpc, ht⟩ := ha
      subst ht
      unfold SInv at ih ⊢
      simp_all [hpc, midPc, idlePc, postPc]
    | aWakeEnd =>
      obtain ⟨hpc, hend, ht⟩ := ha
      subst ht
      unfold SInv at ih ⊢
      simp_all [hpc, midPc, idlePc, postPc]
    | aWakeStart =>
      obtain ⟨hpc, hend, hstr, ht⟩ := ha
      subst ht
      obtain ⟨i1, i2, i3, i4, i5, i6, i7, i8⟩ := ih
      have h6 := i6 hstr
      unfold SInv
      refine ⟨?_, ?_, ?_, ?_, ?_, ?_, ?_, ?_⟩ <;>
        simp_all [hpc, midPc, idlePc, postPc]
    | aAssertOk =>
      obtain ⟨hpc, hok, ht⟩ := ha
      subst ht
      unfold SInv at ih ⊢
      simp_all [hpc, midPc, idlePc, postPc]
    | aAssertFail =>
      obtain ⟨hpc, hbad, ht⟩ := ha
      obtain ⟨i1, i2, i3, i4, i5, i6, i7, i8⟩ := ih
      have h2 := i2 (Or.inl hpc)
      exfalso
      unfold assertViolated at hbad
      simp_all
    | aSetRunning =>
      obtain ⟨hpc, ht⟩ := ha
      subst ht
      unfold SInv at ih ⊢
      simp_all [hpc, midPc, idlePc, postPc]
    | aClearBuf =>
      obtain ⟨hpc, ht⟩ := ha
      subst ht
      unfold SInv at ih ⊢
      simp_all [hpc, midPc, idlePc, postPc]
    | aPerform o evs =>
      obtain ⟨hpc, ht⟩ := ha
      subst ht
      obtain ⟨i1, i2, i3, i4, i5, i6, i7, i8⟩ := ih
      have hbuf : s.acc.buf = [] := i7 hpc
      have hrb := runEvents_buf evs s.acc
      unfold SInv
      refine ⟨?_, ?_, ?_, ?_, ?_, ?_, ?_, ?_⟩ <;>
        simp_all [hpc, midPc, idlePc, postPc]
    | aAbortTaken =>
      obtain ⟨hpc, hab, ht⟩ := ha
      subst ht
      unfold SInv at ih ⊢
      simp_all [hpc, midPc, idlePc, postPc]
    | aLoopAgain =>
      obtain ⟨hpc, hab, htr, ht⟩ := ha
      subst ht
      unfold SInv at ih ⊢
      simp_all [hpc, midPc, idlePc, postPc]
    | aLoopDone =>
      obtain ⟨hpc, hab, htr, ht⟩ := ha
      subst ht
      unfold SInv at ih ⊢
      simp_all [hpc, midPc, idlePc, postPc]
    | aStoreResult status =>
      obtain ⟨hpc, ht⟩ := ha
      subst ht
      unfold SInv at ih ⊢
      simp_all [hpc, midPc, idlePc, postPc]
    | aClose =>
      obtain ⟨hpc, ht⟩ := ha
      subst ht
      unfold SInv at ih ⊢
      simp_all [hpc, midPc, idlePc, postPc]
    | aClearRun =>
      obtain ⟨hpc, ht⟩ := ha
      subst ht
      unfold SInv at ih ⊢
      simp_all [hpc, midPc, idlePc, postPc]
    | aFinish =>
      obtain ⟨hpc, ht⟩ := ha
      subst ht
      unfold SInv at ih ⊢
      simp_all [hpc, midPc, idlePc, postPc]
    | aExit =>
      obtain ⟨hpc, ht⟩ := ha
      subst ht
      unfold SInv at ih ⊢
      simp_all [hpc, midPc, idlePc, postPc]

/-- C2 (amended): under the protocol that `start`/`retry` are invoked
only while the worker is quiescent (blocked at its wait point with no
start pending, or not yet spawned — the discipline the in-progress
guard is meant to enforce), every reachable state satisfies the
invariant: START_REQUEST and REQUEST_RUNNING are never simultaneously
set, and REQUEST_FINISHED is never set while REQUEST_RUNNING is. -/
theorem c2_flag_invariant_quiescent (s : EngineState) (h : ReachSafe s) :
    ¬(s.startRequest = true ∧ s.requestRunning = true) ∧
    ¬(s.requestFinished = true ∧ s.requestRunning = true) := by
  obtain ⟨i1, i2, i3, i4, i5, i6, i7, i8⟩ := reachSafe_sinv h
  constructor
  · rintro ⟨h1, h2⟩
    rw [(i6 h1).2.2] at h2
    exact nomatch h2
  · rintro ⟨h1, h2⟩
    cases hpc : s.pc <;> simp_all [midPc, idlePc]

/-- C2 (amended) witness: the reachable state `d5` (request picked up,
REQUEST_RUNNING just set) satisfies both invariant conjuncts. -/
theorem c2_flag_invariant_quiescent_witness :
    ¬(d5.startRequest = true ∧ d5.requestRunning = true) ∧
    ¬(d5.requestFinished = true ∧ d5.requestRunning = true) :=
  c2_flag_invariant_quiescent d5 reachSafe_d5

/-- C10: in every state of the quiescence-protocol system, the buffer
is empty whenever the worker is about to invoke a perform-step (the
retry loop clears it at the top of every iteration), and at the
completion point the buffer holds exactly the result of running the
event handler from an empty buffer on the events of the last
perform-step — data from earlier retry-later iterations is gone. -/
theorem c10_buffer_cleared_each_iteration (s : EngineState)
    (h : ReachSafe s) :
    (s.pc = WPc.wperform → s.acc.buf = []) ∧
    (s.pc = WPc.wsetFinished →
      s.acc.buf = bufFold s.acc.sizeLimit [] s.lastEvents) := by
  obtain ⟨i1, i2, i3, i4, i5, i6, i7, i8⟩ := reachSafe_sinv h
  exact ⟨i7, fun hf => i8 (by simp [hf, postPc])⟩

/-- C10 witness: at the concrete reachable state `d6` the worker is
about to perform and the buffer is empty. -/
theorem c10_buffer_cleared_each_iteration_witness : d6.acc.buf = [] :=
  (c10_buffer_cleared_each_iteration d6 reachSafe_d6).1 rfl

/-- Inductive invariant of the start-calls-only system: END_TASK is
never set, the worker never reaches its exit path, and a request can
only be pending or running while the worker task exists. -/
def StartInv (s : EngineState) : Prop :=
  s.endTaskBit = false ∧ s.pc ≠ WPc.wexit ∧
  ((s.startRequest || s.requestRunning) = true → s.taskHandle = true)

theorem reachStart_inv {s : EngineState} (h : ReachStart s) : StartInv s := by
  induction h with
  | init => exact ⟨rfl, (fun h1 => nomatch h1), (fun h1 => nomatch h1)⟩
  | @step s t hr hst ih =>
    obtain ⟨i1, i2, i3⟩ := ih
    obtain ⟨a, ha, hsys⟩ := hst
    cases a with
    | aStartTask => exact nomatch hsys
    | aEndTask => exact nomatch hsys
    | aEndAck => exact nomatch hsys
    | aRetry ok => exact nomatch hsys
    | aAbort => exact nomatch hsys
    | aClearFin => exact nomatch hsys
    | aStart ok =>
      obtain ⟨hpc, ht⟩ := ha
      subst ht
      cases hh : s.taskHandle with
      | true =>
        rw [startFn_handle_true s ok hh]
        rcases startBody_shape s ok with hs | hs | hs <;> rw [hs] <;>
          exact ⟨i1, i2, fun _ => hh⟩
      | false =>
        cases hr2 : s.taskRunning with
        | true =>
          rw [startFn_handle_false_running s ok hh hr2]
          exact ⟨i1, i2, i3⟩
        | false =>
          rw [startFn_handle_false s ok hh hr2]
          rcases startBody_shape (resetOf s) ok with hs | hs | hs <;> rw [hs] <;>
            exact ⟨rfl, (fun h1 => nomatch h1), (fun _ => rfl)⟩
    | aInit =>
      obtain ⟨hpc, ht⟩ := ha
      subst ht
      exact ⟨i1, (fun h1 => nomatch h1), (fun h1 => i3 h1)⟩
    | aWakeEnd =>
      obtain ⟨hpc, hend, ht⟩ := ha
      rw [i1] at hend
      exact nomatch hend
    | aWakeStart =>
      obtain ⟨hpc, hend, hstr, ht⟩ := ha
      subst ht
      refine ⟨i1, (fun h1 => nomatch h1), fun h1 => ?_⟩
      exact i3 (by simp_all)
    | aAssertOk =>
      obtain ⟨hpc, hok, ht⟩ := ha
      subst ht
      exact ⟨i1, (fun h1 => nomatch h1), i3⟩
    | aAssertFail =>
      obtain ⟨hpc, hbad, ht⟩ := ha
      subst ht
      exact ⟨i1, (fun h1 => nomatch h1), i3⟩
    | aSetRunning =>
      obtain ⟨hpc, ht⟩ := ha
      subst ht
      refine ⟨i1, (fun h1 => nomatch h1), fun _ => ?_⟩
      exact (reach_minv (reachStartIsReach hr)).1 (by simp [hpc]) (by simp [hpc])
    | aClearBuf =>
      obtain ⟨hpc, ht⟩ := ha
      subst ht
      exact ⟨i1, (fun h1 => nomatch h1), i3⟩
    | aPerform o evs =>
      obtain ⟨hpc, ht⟩ := ha
      subst ht
      exact ⟨i1, (fun h1 => nomatch h1), i3⟩
    | aAbortTaken =>
      obtain ⟨hpc, hab, ht⟩ := ha
      subst ht
      exact ⟨i1, (fun h1 => nomatch h1), i3⟩
    | aLoopAgain =>
      obtain ⟨hpc, hab, htr, ht⟩ := ha
      subst ht
      exact ⟨i1, (fun h1 => nomatch h1), i3⟩
    | aLoopDone =>
      obtain ⟨hpc, hab, htr, ht⟩ := ha
      subst ht
      exact ⟨i1, (fun h1 => nomatch h1), i3⟩
    | aStoreResult status =>
      obtain ⟨hpc, ht⟩ := ha
      subst ht
      exact ⟨i1, (fun h1 => nomatch h1), i3⟩
    | aClose =>
      obtain ⟨hpc, ht⟩ := ha
      subst ht
      exact ⟨i1, (fun h1 => nomatch h1), i3⟩
    | aClearRun =>
      obtain ⟨hpc, ht⟩ := ha
      subst ht
      refine ⟨i1, (fun h1 => nomatch h1), fun h1 => ?_⟩
      exact i3 (by simp_all)
    | aFinish =>
      obtain ⟨hpc, ht⟩ := ha
      subst ht
      exact ⟨i1, (fun h1 => nomatch h1), i3⟩
    | aExit =>
      obtain ⟨hpc, ht⟩ := ha
      exact absurd hpc i2

/-- C7: in every state reachable by sequences of `start` calls
interleaved with worker steps, a further `start` call made while
`inProgress()` is true returns the in-progress error and leaves the
whole engine state — flags, buffer, pending request — exactly
unchanged, whether or not its driver setup would have succeeded. -/
theorem c7_second_start_rejected (s : EngineState) (h : ReachStart s)
    (hip : (s.startRequest || s.requestRunning) = true) (ok : Bool) :
    startFn s ok = (s, some "another request still in progress") := by
  obtain ⟨h1, h2, h3⟩ := reachStart_inv h
  rw [startFn_handle_true s ok (h3 hip)]
  unfold startBody
  rw [if_pos hip]

/-- C7 witness: after one `start` from the constructed state, a second
`start` while the request is queued is rejected and changes nothing. -/
theorem c7_second_start_rejected_witness :
    startFn d1 true = (d1, some "another request still in progress") := by
  have hr1 : ReachStart d1 :=
    ReachStart.step ReachStart.init ⟨Act.aStart true, ⟨by decide, rfl⟩, rfl⟩
  exact c7_second_start_rejected d1 hr1 (by decide) true

/-- C6 counterexample: the reachable completed state `g12` has
transport completion code `ESP_OK` but HTTP status 404, and `result()`
reports success — the non-success status code is NOT surfaced through
`result()`, refuting the claim for the current revision. -/
theorem c6_status_code_not_surfaced_cex :
    Reach g12 ∧ g12.requestFinished = true ∧ g12.requestRunning = false ∧
    g12.mStatusCode = 404 ∧ g12.mResult = ESP_OK ∧ resultFn g12 = none :=
  ⟨reach_g12, by decide, by decide, by decide, by decide, by decide⟩

/-- C6 (amended): `result()` in the current revision reports failure
iff the stored completion code is not `ESP_OK` and ignores the HTTP
status code (exposed separately via `statusCode()`); only the earlier
revision's `failed()` surfaced a non-success status code (≠ 200) as a
failure even when the completion code indicated success. -/
theorem c6_status_code_old_failed (s : EngineState)
    (hrun : s.requestRunning = false) (hfin : s.requestFinished = true)
    (hok : s.mResult = ESP_OK) (hst : s.mStatusCode ≠ 200) :
    resultFn s = none ∧
    failedFn s = some ("http request failed: " ++ toString s.mStatusCode) := by
  unfold resultFn failedFn
  simp [hrun, hfin, hok, hst, ESP_OK]

/-- C6 (amended) witness: at the completed state `g12` (status 404,
completion `ESP_OK`), `result()` succeeds while the earlier revision's
`failed()` reports the status-code failure. -/
theorem c6_status_code_old_failed_witness :
    resultFn g12 = none ∧
    failedFn g12 = some ("http request failed: " ++ toString g12.mStatusCode) :=
  c6_status_code_old_failed g12 (by decide) (by decide) (by decide) (by decide)
